import Mathlib

/-!
Verification development for the Narwhal/Tusk node.

The repository's visible source is the node orchestration layer
(`node/src/main.rs`) and the worker crate's module structure
(`worker/src/lib.rs`).  The protocol components (DAG core, vote
aggregation, consensus ordering, leader election) are described by the
design document; where their code is not part of the visible source we
model them from the design document's words and say so in the doc
comment of each such definition.
-/

namespace Narwhal

/-! ## Protocol data model (modelled from the spec) -/

/-- Modelled from the spec: an authority is a committee member identified
by a public key (abstracted as a numeric identifier) and a stake weight. -/
structure Authority where
  name : Nat
  stake : Nat
deriving DecidableEq, Repr

/-- Modelled from the spec: the committee is the set of authorities and
their voting stake, fixed per epoch. -/
structure Committee where
  authorities : List Authority
deriving DecidableEq, Repr

/-- Modelled from the spec: a certificate is a header plus a stake quorum
of votes.  For DAG bookkeeping what matters is its author, its round, its
parent references (stored as (round, author) keys resolved through the DAG
mapping) and its content digest, which distinguishes certificates. -/
structure Certificate where
  author : Nat
  round : Nat
  parents : List (Nat × Nat)
  digest : Nat
deriving DecidableEq, Repr

/-! ## DAG core (modelled from the spec, section 4.4)

The DAG is the mapping (round, author) -> certificate, represented as the
list of admitted certificates looked up by their (round, author) key.
A local state also holds the certificates received but not yet admitted
because a causal predecessor is missing (held pending until
synchronization delivers the parents). -/

/-- Whether the DAG mapping already has an entry under key
(round `r`, author `a`). -/
def containsSlot (dag : List Certificate) (r a : Nat) : Bool :=
  dag.any fun c => c.round == r && c.author == a

/-- Whether the (author, round) slot of certificate `c` is already
occupied in the DAG. -/
def slotOccupied (dag : List Certificate) (c : Certificate) : Bool :=
  containsSlot dag c.round c.author

/-- Whether every declared parent reference of `c` is already present in
the DAG. -/
def parentsPresent (dag : List Certificate) (c : Certificate) : Bool :=
  c.parents.all fun p => containsSlot dag p.1 p.2

/-- Modelled from the spec: a certificate may be admitted only if its
(author, round) slot is free (anti-equivocation) and all of its parents
are already admitted (causal completeness). -/
def admissible (dag : List Certificate) (c : Certificate) : Bool :=
  !slotOccupied dag c && parentsPresent dag c

/-- The DAG core's state: the admitted certificates plus the certificates
held pending because some causal predecessor is still missing. -/
structure DagState where
  dag : List Certificate
  pending : List Certificate
deriving DecidableEq, Repr

/-- The initial, empty DAG state. -/
def dagInit : DagState := ⟨[], []⟩

/-- Modelled from the spec: once a certificate is admitted, previously
pending certificates that depended on it are re-checked; `drain` admits
pending certificates one at a time as long as one of them is admissible.
`fuel` bounds the number of admissions (each admission moves one
certificate out of `pending`, so `pending.length` fuel always suffices). -/
def drain : Nat → DagState → DagState
  | 0, s => s
  | fuel + 1, s =>
    match s.pending.find? (fun c => admissible s.dag c) with
    | none => s
    | some c => drain fuel ⟨c :: s.dag, s.pending.erase c⟩

/-- Modelled from the spec (section 4.4): on receiving a certificate the
DAG core rejects it when a certificate already occupies its
(author, round) slot (duplicate or equivocation) or when the very same
certificate is already held pending (digest-keyed deduplication);
otherwise the certificate is held and every certificate whose slot is
free and whose parents are all present is admitted, re-checking the
previously pending ones. -/
def receiveCertificate (s : DagState) (c : Certificate) : DagState :=
  if slotOccupied s.dag c = true ∨ c ∈ s.pending then s
  else drain (s.pending.length + 1) ⟨s.dag, c :: s.pending⟩

/-- The DAG states reachable from the empty state by receiving
certificates. -/
inductive Reachable : DagState → Prop
  | init : Reachable dagInit
  | recv (s : DagState) (c : Certificate) : Reachable s → Reachable (receiveCertificate s c)

/-- Anti-equivocation invariant: the DAG holds at most one certificate
per (author, round). -/
def DagUnique (dag : List Certificate) : Prop :=
  ∀ c1, c1 ∈ dag → ∀ c2, c2 ∈ dag → c1.round = c2.round → c1.author = c2.author → c1 = c2

/-- Causal-completeness invariant: every admitted certificate's declared
parents are present in the DAG. -/
def DagComplete (dag : List Certificate) : Prop :=
  ∀ c, c ∈ dag → parentsPresent dag c = true

/-! ## Vote aggregation and batch acknowledgments (modelled from the
spec, sections 4.1 and 4.3) -/

/-- Modelled from the spec: a vote is a signed endorsement of a header,
identified for aggregation purposes by the header it endorses and the
voter that signed it. -/
structure Vote where
  headerDigest : Nat
  voter : Nat
deriving DecidableEq, Repr

/-- The vote aggregator's state: the votes collected so far and the
digests of headers that already have a certificate. -/
structure VoteState where
  votes : List Vote
  certified : List Nat
deriving DecidableEq, Repr

/-- Modelled from the spec (section 4.3): votes for a header that already
has a certificate are discarded, and duplicate votes from the same voter
are ignored (idempotent aggregation). -/
def processVote (s : VoteState) (v : Vote) : VoteState :=
  if v.headerDigest ∈ s.certified then s
  else if s.votes.any (fun u => u.voter == v.voter && u.headerDigest == v.headerDigest) then s
  else { s with votes := v :: s.votes }

/-- The quorum waiter's state for one batch: the authorities that have
acknowledged receipt and durable storage of the batch. -/
structure AckState where
  acks : List Nat
deriving DecidableEq, Repr

/-- Modelled from the spec (section 4.1): a batch acknowledgment from an
authority that has already acknowledged is ignored (digest-keyed
deduplication), so the stake of each authority is counted once. -/
def processAck (s : AckState) (a : Nat) : AckState :=
  if a ∈ s.acks then s else { acks := a :: s.acks }

/-! ## Consensus core (modelled from the spec, section 4.6) -/

/-- One committed certificate in final order: the certificate together
with its assigned sequence position. -/
structure ConsensusOutput where
  certificate : Certificate
  consensusIndex : Nat
deriving DecidableEq, Repr

/-- The consensus core's state: the next sequence position to assign, the
certificates already committed, and the stream of outputs emitted so far
(in emission order). -/
structure ConsensusState where
  consensusIndex : Nat
  committed : List Certificate
  outputs : List ConsensusOutput
deriving DecidableEq, Repr

/-- The initial consensus state: nothing committed, next position 0. -/
def consensusInit : ConsensusState := ⟨0, [], []⟩

/-- Modelled from the spec (section 4.6, steps 3-5): emit one certificate
of a confirmed leader's causal history, excluding already-committed
certificates; each emission wraps exactly one certificate, is assigned
the current sequence position, and advances the position. -/
def emitCertificate (s : ConsensusState) (c : Certificate) : ConsensusState :=
  if c ∈ s.committed then s
  else ⟨s.consensusIndex + 1, c :: s.committed, s.outputs ++ [⟨c, s.consensusIndex⟩]⟩

/-- Modelled from the spec: when a round's leader is confirmed, its
deterministically ordered causal history is emitted certificate by
certificate. -/
def emitSequence (s : ConsensusState) (l : List Certificate) : ConsensusState :=
  l.foldl emitCertificate s

/-- The consensus states reachable from the initial state by committing
leader histories. -/
inductive ConsensusReachable : ConsensusState → Prop
  | init : ConsensusReachable consensusInit
  | commitLeader (s : ConsensusState) (l : List Certificate) :
      ConsensusReachable s → ConsensusReachable (emitSequence s l)

/-- The output stream properties claimed of the consensus core: along the
stream, assigned sequence positions strictly increase and no certificate
appears twice. -/
def outputsOrdered (l : List ConsensusOutput) : Prop :=
  l.Pairwise fun o1 o2 => o1.consensusIndex < o2.consensusIndex ∧ o1.certificate ≠ o2.certificate

/-- The consensus core's inductive invariant: the output stream is
ordered and duplicate-free, every emitted position is below the next
position to assign, and every emitted certificate is recorded as
committed. -/
def ConsensusInv (s : ConsensusState) : Prop :=
  outputsOrdered s.outputs ∧
    ∀ o ∈ s.outputs, o.consensusIndex < s.consensusIndex ∧ o.certificate ∈ s.committed

/-! ## Leader election (modelled from the spec, sections 4.6 and 9) -/

/-- Modelled from the spec: the per-round leader is a deterministic pure
function of the round number and the committee membership (the exact
policy is pluggable; round-robin over the committee is the representative
choice), computed identically by every authority without communication
and without hidden state. -/
def leader (round : Nat) (committee : Committee) : Option Authority :=
  committee.authorities.get? (round % committee.authorities.length)

/-! ## Node orchestration (embedded from `node/src/main.rs`)

The fallible external operations that `run` performs (importing the
keypair, committee and parameters files through the `config` crate,
creating the store, parsing the prometheus socket address) live outside
the visible source; they are passed in as an environment of functions
returning `Except Unit`, and `run` itself — the control flow, the
`.context(...)` error causes, the channel creations and the component
spawns of `main.rs` lines 77-173 — is embedded faithfully below.  In the
source `run` never returns `Ok` (it ends in the `analyze` loop); the
embedding instead returns, on the success path, a record of the
orchestration effects at the point `analyze` is reached: the capacities
of the channels created, the components spawned, and the parameters in
use. -/

/-- Modelled from the spec: the keypair loaded from the key file
(abstracted to the public name `Worker::spawn` receives). -/
structure KeyPair where
  name : Nat
deriving DecidableEq, Repr

/-- Modelled from the spec: the node's tunable parameters (the concrete
fields and default values live in the `config` crate; only their identity
matters to the orchestration layer). -/
structure Parameters where
  gcDepth : Nat
  batchSize : Nat
  maxBatchDelay : Nat
deriving DecidableEq, Repr

/-- The `Parameters::default()` value used when no parameters file is
supplied (field values abstract placeholders for the `config` crate's
defaults). -/
def Parameters.default : Parameters := ⟨50, 1000, 100⟩

/-- The data store handle created at the supplied path. -/
structure Store where
  path : String
deriving DecidableEq, Repr

/-- The subcommand of `run`: a single primary, or a single worker with
the raw text of its `--id` argument. -/
inductive NodeSubcommand
  | primary
  | worker (idString : String)
deriving DecidableEq, Repr

/-- The argument matches `run` receives: `--keys`, `--committee`,
optional `--parameters`, `--store`, optional `--prometheus`, and the
subcommand. -/
structure RunMatches where
  keys : String
  committee : String
  parameters : Option String
  store : String
  prometheus : Option String
  sub : NodeSubcommand
deriving DecidableEq, Repr

/-- The environment of fallible external operations `run` invokes, each
keyed by the textual argument it receives. -/
structure World where
  keypairImport : String → Except Unit KeyPair
  committeeImport : String → Except Unit Committee
  parametersImport : String → Except Unit Parameters
  storeNew : String → Except Unit Store
  parseSocketAddr : String → Except Unit Nat

/-- The components `run` can spawn. -/
inductive Component
  | primaryComp
  | consensusComp
  | workerComp (id : Nat)
deriving DecidableEq, Repr

/-- The observable orchestration effects of a successful `run`: the
capacities of the bounded channels created (in creation order), the
components spawned, and the parameters in use. -/
structure RunEffects where
  channels : List Nat
  spawned : List Component
  parametersUsed : Parameters
deriving DecidableEq, Repr

/-- The default channel capacity (`main.rs` line 22). -/
def CHANNEL_CAPACITY : Nat := 1000

/-- Embeds anyhow's `.context(msg)?`: a failure of the underlying
operation becomes an error carrying the descriptive cause `msg`. -/
def withContext {α : Type} (msg : String) : Except Unit α → Except String α
  | .ok a => .ok a
  | .error _ => .error msg

/-- Embeds `str::parse::<u32>` applied to the worker `--id` argument
(`WorkerId` is `u32`): an optional leading plus sign, then one or more
decimal digits, rejecting anything else and values that overflow 32
bits. -/
def parseWorkerId (s : String) : Except Unit Nat :=
  let t := match s.toList with
    | '+' :: rest => rest
    | cs => cs
  if t.length = 0 then .error ()
  else if t.all Char.isDigit then
    let n := t.foldl (fun acc c => acc * 10 + (c.toNat - 48)) 0
    if n < 4294967296 then .ok n else .error ()
  else .error ()

/-- Embeds `main.rs` lines 88-94: load the parameters from the file when
one is supplied (with the `.context` cause on failure), and fall back to
`Parameters::default()` when none is. -/
def resolveParameters (w : World) (m : RunMatches) : Except String Parameters :=
  match m.parameters with
  | some filename =>
      withContext "Failed to load the node\x27s parameters" (w.parametersImport filename)
  | none => Except.ok Parameters.default

/-- Embeds `main.rs` lines 104-117: when a prometheus address is
supplied, parse it (with the `.context` cause on failure) and return a
registry; otherwise no registry. -/
def resolveRegistry (w : World) (m : RunMatches) : Except String (Option Nat) :=
  match m.prometheus with
  | some address =>
      withContext "Invalid prometheus socket address" ((w.parseSocketAddr address).map Option.some)
  | none => Except.ok Option.none

/-- Embeds `run` (`main.rs` lines 77-173): import the keypair and the
committee, resolve the parameters, create the store, create the
consensus-output channel, resolve the prometheus registry, then spawn
either the primary plus the consensus core (creating the
new-certificates and feedback channels) or a single worker (after
parsing its id); each `?` early-returns the error with its `.context`
cause, so nothing is spawned on any failure. -/
def run (w : World) (m : RunMatches) : Except String RunEffects :=
  match withContext "Failed to load the node\x27s keypair" (w.keypairImport m.keys) with
  | .error e => .error e
  | .ok _keypair =>
    match withContext "Failed to load the committee information" (w.committeeImport m.committee) with
    | .error e => .error e
    | .ok _committee =>
      match resolveParameters w m with
      | .error e => .error e
      | .ok parameters =>
        match withContext "Failed to create a store" (w.storeNew m.store) with
        | .error e => .error e
        | .ok _store =>
          match resolveRegistry w m with
          | .error e => .error e
          | .ok _registry =>
            match m.sub with
            | .primary =>
                .ok ⟨[CHANNEL_CAPACITY, CHANNEL_CAPACITY, CHANNEL_CAPACITY],
                     [.primaryComp, .consensusComp], parameters⟩
            | .worker idString =>
                match withContext "The worker id must be a positive integer" (parseWorkerId idString) with
                | .error e => .error e
                | .ok id => .ok ⟨[CHANNEL_CAPACITY], [.workerComp id], parameters⟩

/-- Embeds `main.rs` lines 54-60: the default log level as a function of
the number of `-v` occurrences. -/
def logLevel : Nat → String
  | 0 => "error"
  | 1 => "warn"
  | 2 => "info"
  | 3 => "debug"
  | _ => "trace"

/-! ## Concrete values used by the witnesses -/

/-- A genesis-style certificate with no parents. -/
def cert00 : Certificate := ⟨0, 0, [], 0⟩

/-- A second authority's certificate for round 0, no parents. -/
def cert01 : Certificate := ⟨1, 0, [], 1⟩

/-- A round-1 certificate referencing `cert00` as parent. -/
def cert10 : Certificate := ⟨0, 1, [(0, 0)], 2⟩

/-- An environment in which every external operation succeeds. -/
def wAllOk : World :=
  ⟨fun _ => .ok ⟨0⟩, fun _ => .ok ⟨[]⟩, fun _ => .ok Parameters.default,
   fun p => .ok ⟨p⟩, fun _ => .ok 0⟩

/-- Like `wAllOk` but the keypair import fails. -/
def wBadKeys : World := { wAllOk with keypairImport := fun _ => .error () }

/-- Like `wAllOk` but the committee import fails. -/
def wBadCommittee : World := { wAllOk with committeeImport := fun _ => .error () }

/-- Like `wAllOk` but the parameters import fails. -/
def wBadParameters : World := { wAllOk with parametersImport := fun _ => .error () }

/-- Like `wAllOk` but the store creation fails. -/
def wBadStore : World := { wAllOk with storeNew := fun _ => .error () }

/-- Argument matches for a primary with no parameters file. -/
def mPrimary : RunMatches := ⟨"node.json", "committee.json", none, "db", none, .primary⟩

/-- Argument matches for a primary with a parameters file. -/
def mPrimaryParams : RunMatches := { mPrimary with parameters := some "parameters.json" }

/-- Argument matches for a worker with the given raw id argument. -/
def mWorker (idString : String) : RunMatches := { mPrimary with sub := .worker idString }

/-- A three-authority committee used by the leader witness. -/
def committee3 : Committee := ⟨[⟨0, 1⟩, ⟨1, 1⟩, ⟨2, 1⟩]⟩

/-- The effects of a successful primary `run` under default parameters. -/
def runEffPrimary : RunEffects :=
  ⟨[CHANNEL_CAPACITY, CHANNEL_CAPACITY, CHANNEL_CAPACITY],
   [Component.primaryComp, Component.consensusComp], Parameters.default⟩

/-! ## Helper lemmas about the DAG core -/

theorem containsSlot_mono {l1 l2 : List Certificate} (hsub : ∀ x, x ∈ l1 → x ∈ l2)
    {r a : Nat} (hc : containsSlot l1 r a = true) : containsSlot l2 r a = true := by
  rcases List.any_eq_true.mp hc with ⟨c, hmem, hp⟩
  exact List.any_eq_true.mpr ⟨c, hsub c hmem, hp⟩

theorem parentsPresent_mono {l1 l2 : List Certificate} (hsub : ∀ x, x ∈ l1 → x ∈ l2)
    {c : Certificate} (hp : parentsPresent l1 c = true) : parentsPresent l2 c = true := by
  rw [parentsPresent, List.all_eq_true] at hp ⊢
  intro p hmem
  exact containsSlot_mono hsub (hp p hmem)

theorem slotOccupied_of_mem {dag : List Certificate} {c : Certificate} (h : c ∈ dag) :
    slotOccupied dag c = true :=
  List.any_eq_true.mpr ⟨c, h, by simp⟩

theorem admit_unique {dag : List Certificate} {c : Certificate}
    (hu : DagUnique dag) (hfree : slotOccupied dag c = false) : DagUnique (c :: dag) := by
  intro c1 h1 c2 h2 hr ha
  rcases List.mem_cons.mp h1 with hc1 | h1 <;> rcases List.mem_cons.mp h2 with hc2 | h2
  · rw [hc1, hc2]
  · have : slotOccupied dag c = true :=
      List.any_eq_true.mpr ⟨c2, h2, by rw [← hc1, hr, ha]; simp⟩
    rw [hfree] at this
    exact absurd this (by simp)
  · have : slotOccupied dag c = true :=
      List.any_eq_true.mpr ⟨c1, h1, by rw [← hc2, hr, ha]; simp⟩
    rw [hfree] at this
    exact absurd this (by simp)
  · exact hu c1 h1 c2 h2 hr ha

theorem admit_complete {dag : List Certificate} {c : Certificate}
    (hc : DagComplete dag) (hp : parentsPresent dag c = true) : DagComplete (c :: dag) := by
  intro x hx
  rcases List.mem_cons.mp hx with rfl | hx
  · exact parentsPresent_mono (fun y hy => List.mem_cons_of_mem _ hy) hp
  · exact parentsPresent_mono (fun y hy => List.mem_cons_of_mem _ hy) (hc x hx)

theorem drain_dag_mem : ∀ (fuel : Nat) (s : DagState) (x : Certificate),
    x ∈ s.dag → x ∈ (drain fuel s).dag := by
  intro fuel
  induction fuel with
  | zero => intro s x hx; exact hx
  | succ n ih =>
    intro s x hx
    rw [drain]
    cases hfind : s.pending.find? (fun c => admissible s.dag c) with
    | none => exact hx
    | some c => exact ih _ x (List.mem_cons_of_mem _ hx)

theorem drain_pending_mem : ∀ (fuel : Nat) (s : DagState) (x : Certificate),
    x ∈ s.pending → x ∈ (drain fuel s).pending ∨ x ∈ (drain fuel s).dag := by
  intro fuel
  induction fuel with
  | zero => intro s x hx; exact Or.inl hx
  | succ n ih =>
    intro s x hx
    rw [drain]
    cases hfind : s.pending.find? (fun c => admissible s.dag c) with
    | none => exact Or.inl hx
    | some c =>
      by_cases hxc : x = c
      · subst hxc
        exact Or.inr (drain_dag_mem n _ x (List.mem_cons_self x _))
      · exact ih _ x ((List.mem_erase_of_ne hxc).mpr hx)

theorem drain_inv : ∀ (fuel : Nat) (s : DagState),
    DagUnique s.dag → DagComplete s.dag →
    DagUnique (drain fuel s).dag ∧ DagComplete (drain fuel s).dag := by
  intro fuel
  induction fuel with
  | zero => intro s hu hc; exact ⟨hu, hc⟩
  | succ n ih =>
    intro s hu hc
    rw [drain]
    cases hfind : s.pending.find? (fun c => admissible s.dag c) with
    | none => exact ⟨hu, hc⟩
    | some c =>
      have hadm : admissible s.dag c = true := List.find?_some hfind
      rw [admissible, Bool.and_eq_true, Bool.not_eq_true'] at hadm
      exact ih _ (admit_unique hu hadm.1) (admit_complete hc hadm.2)

theorem receive_inv {s : DagState} (c : Certificate)
    (hu : DagUnique s.dag) (hc : DagComplete s.dag) :
    DagUnique (receiveCertificate s c).dag ∧ DagComplete (receiveCertificate s c).dag := by
  rw [receiveCertificate]
  split
  · exact ⟨hu, hc⟩
  · exact drain_inv _ ⟨s.dag, c :: s.pending⟩ hu hc

theorem reachable_inv {s : DagState} (h : Reachable s) :
    DagUnique s.dag ∧ DagComplete s.dag := by
  induction h with
  | init =>
    constructor
    · intro c1 h1 c2 h2 hr ha
      exact absurd h1 (List.not_mem_nil c1)
    · intro c hmem
      exact absurd hmem (List.not_mem_nil c)
  | recv s c _ ih => exact receive_inv c ih.1 ih.2

/-! ## Claims C1 and C2: DAG invariants -/

/-- Claim C1: in every reachable DAG state, the mapping
(round, author) -> certificate never holds two distinct certificates
with the same author and round, and every admitting operation
(`receiveCertificate`) preserves this. -/
theorem c1_no_equivocation (s : DagState) (h : Reachable s)
    (c1 c2 : Certificate) (h1 : c1 ∈ s.dag) (h2 : c2 ∈ s.dag)
    (hr : c1.round = c2.round) (ha : c1.author = c2.author) : c1 = c2 :=
  (reachable_inv h).1 c1 h1 c2 h2 hr ha

/-- Witness for C1: a concrete reachable state with admitted
certificates, instantiating the theorem's hypotheses. -/
theorem c1_no_equivocation_witness :
    cert10 ∈ (receiveCertificate (receiveCertificate dagInit cert00) cert10).dag ∧
      cert10 = cert10 :=
  ⟨by decide,
   c1_no_equivocation (receiveCertificate (receiveCertificate dagInit cert00) cert10)
     (Reachable.recv _ cert10 (Reachable.recv _ cert00 Reachable.init))
     cert10 cert10 (by decide) (by decide) rfl rfl⟩

/-- Claim C2: a certificate is admitted only after all of its declared
parents are admitted, so in every reachable DAG state no admitted
certificate has a parent reference absent from the DAG. -/
theorem c2_causal_completeness (s : DagState) (h : Reachable s)
    (c : Certificate) (hc : c ∈ s.dag) (p : Nat × Nat) (hp : p ∈ c.parents) :
    containsSlot s.dag p.1 p.2 = true := by
  have hall := (reachable_inv h).2 c hc
  rw [parentsPresent, List.all_eq_true] at hall
  exact hall p hp

/-- Witness for C2: the concrete round-1 certificate admitted after its
parent, whose parent reference the theorem resolves in the DAG. -/
theorem c2_causal_completeness_witness :
    containsSlot (receiveCertificate (receiveCertificate dagInit cert00) cert10).dag 0 0 = true :=
  c2_causal_completeness (receiveCertificate (receiveCertificate dagInit cert00) cert10)
    (Reachable.recv _ cert10 (Reachable.recv _ cert00 Reachable.init))
    cert10 (by decide) (0, 0) (by decide)

/-! ## Claim C3: the consensus output stream -/

theorem emitCertificate_inv {s : ConsensusState} {c : Certificate}
    (h : ConsensusInv s) : ConsensusInv (emitCertificate s c) := by
  rw [emitCertificate]
  split
  · exact h
  · rename_i hnc
    constructor
    · rw [outputsOrdered] at *
      rw [List.pairwise_append]
      refine ⟨h.1, List.pairwise_singleton _ _, ?_⟩
      intro o ho b hb
      rw [List.mem_singleton] at hb
      subst hb
      refine ⟨(h.2 o ho).1, fun he => hnc ?_⟩
      have h3 := (h.2 o ho).2
      rw [he] at h3
      exact h3
    · intro o ho
      rcases List.mem_append.mp ho with ho | ho
      · exact ⟨Nat.lt_succ_of_lt (h.2 o ho).1, List.mem_cons_of_mem _ (h.2 o ho).2⟩
      · rw [List.mem_singleton] at ho
        subst ho
        exact ⟨Nat.lt_succ_self _, List.mem_cons_self _ _⟩

theorem emitSequence_inv : ∀ (l : List Certificate) (s : ConsensusState),
    ConsensusInv s → ConsensusInv (emitSequence s l) := by
  intro l
  induction l with
  | nil => intro s h; exact h
  | cons c t ih => intro s h; exact ih _ (emitCertificate_inv h)

theorem consensusReachable_inv {s : ConsensusState} (h : ConsensusReachable s) :
    ConsensusInv s := by
  induction h with
  | init => exact ⟨List.Pairwise.nil, fun o ho => absurd ho (List.not_mem_nil o)⟩
  | commitLeader s l _ ih => exact emitSequence_inv l s ih

/-- Claim C3: over any execution of the consensus core, the stream of
`ConsensusOutput` events (each wrapping exactly one certificate, by the
shape of `ConsensusOutput`) has strictly increasing assigned sequence
positions and never emits the same certificate twice. -/
theorem c3_output_stream (s : ConsensusState) (h : ConsensusReachable s) :
    outputsOrdered s.outputs :=
  (consensusReachable_inv h).1

/-- Witness for C3: a concrete two-certificate commit, instantiating the
reachability hypothesis. -/
theorem c3_output_stream_witness :
    outputsOrdered (emitSequence consensusInit [cert00, cert10]).outputs :=
  c3_output_stream _ (ConsensusReachable.commitLeader _ _ ConsensusReachable.init)

/-! ## Claim C4: deterministic leader selection -/

/-- Claim C4: leader selection is a pure function of the round number
and the committee; any two independent evaluations on equal inputs
return the same authority. -/
theorem c4_leader_deterministic (r1 r2 : Nat) (c1 c2 : Committee)
    (hr : r1 = r2) (hc : c1 = c2) : leader r1 c1 = leader r2 c2 := by
  rw [hr, hc]

/-- Witness for C4: two evaluations at round 7 over a concrete
three-authority committee. -/
theorem c4_leader_deterministic_witness :
    (7 : Nat) = 7 ∧ leader 7 committee3 = leader 7 committee3 :=
  ⟨rfl, c4_leader_deterministic 7 7 committee3 committee3 rfl rfl⟩

/-! ## Claim C5: idempotent message processing -/

theorem receive_idem (s : DagState) (c : Certificate) :
    receiveCertificate (receiveCertificate s c) c = receiveCertificate s c := by
  by_cases h : slotOccupied s.dag c = true ∨ c ∈ s.pending
  · have hs : receiveCertificate s c = s := by rw [receiveCertificate, if_pos h]
    rw [hs]
    exact hs
  · have hs : receiveCertificate s c = drain (s.pending.length + 1) ⟨s.dag, c :: s.pending⟩ := by
      rw [receiveCertificate, if_neg h]
    rcases drain_pending_mem (s.pending.length + 1) ⟨s.dag, c :: s.pending⟩ c
        (List.mem_cons_self c s.pending) with h1 | h2
    · rw [hs, receiveCertificate, if_pos (Or.inr h1)]
    · rw [hs, receiveCertificate, if_pos (Or.inl (slotOccupied_of_mem h2))]

theorem processVote_idem (s : VoteState) (v : Vote) :
    processVote (processVote s v) v = processVote s v := by
  by_cases h1 : v.headerDigest ∈ s.certified
  · simp [processVote, h1]
  · by_cases h2 : s.votes.any
        (fun u => u.voter == v.voter && u.headerDigest == v.headerDigest) = true
    · simp [processVote, h1, h2]
    · simp [processVote, h1, h2]

theorem processAck_idem (s : AckState) (a : Nat) :
    processAck (processAck s a) a = processAck s a := by
  by_cases h : a ∈ s.acks
  · simp [processAck, h]
  · simp [processAck, h]

/-- Claim C5: delivering the same certificate, vote, or
batch-acknowledgment message a second time leaves the state unchanged:
each processing function is idempotent. -/
theorem c5_idempotent_processing :
    (∀ (s : DagState) (c : Certificate),
        receiveCertificate (receiveCertificate s c) c = receiveCertificate s c)
  ∧ (∀ (s : VoteState) (v : Vote), processVote (processVote s v) v = processVote s v)
  ∧ (∀ (s : AckState) (a : Nat), processAck (processAck s a) a = processAck s a) :=
  ⟨receive_idem, processVote_idem, processAck_idem⟩

/-! ## Helper lemmas about the orchestration layer -/

theorem withContext_error {α : Type} {msg e : String} {x : Except Unit α}
    (h : withContext msg x = Except.error e) : e = msg := by
  cases x with
  | ok a => exact absurd h (by simp [withContext])
  | error u =>
    simp [withContext] at h
    exact h.symm

theorem resolveParameters_error {w : World} {m : RunMatches} {e : String}
    (h : resolveParameters w m = Except.error e) :
    (∃ f, m.parameters = some f) ∧ e = "Failed to load the node\x27s parameters" := by
  rw [resolveParameters] at h
  cases hp : m.parameters with
  | none => rw [hp] at h; exact absurd h (by simp)
  | some f =>
    rw [hp] at h
    exact ⟨⟨f, rfl⟩, withContext_error h⟩

theorem resolveRegistry_error {w : World} {m : RunMatches} {e : String}
    (h : resolveRegistry w m = Except.error e) :
    e = "Invalid prometheus socket address" := by
  rw [resolveRegistry] at h
  cases hp : m.prometheus with
  | none => rw [hp] at h; exact absurd h (by simp)
  | some address =>
    rw [hp] at h
    exact withContext_error h

theorem run_ok_effects {w : World} {m : RunMatches} {eff : RunEffects}
    (h : run w m = Except.ok eff) :
    resolveParameters w m = Except.ok eff.parametersUsed
    ∧ (∀ cap, cap ∈ eff.channels → cap = CHANNEL_CAPACITY)
    ∧ (m.sub = NodeSubcommand.primary →
        eff.channels = [CHANNEL_CAPACITY, CHANNEL_CAPACITY, CHANNEL_CAPACITY]) := by
  rw [run] at h
  cases hk : withContext "Failed to load the node\x27s keypair" (w.keypairImport m.keys) with
  | error e => simp only [hk] at h; exact Except.noConfusion h
  | ok k =>
  simp only [hk] at h
  cases hc : withContext "Failed to load the committee information"
      (w.committeeImport m.committee) with
  | error e => simp only [hc] at h; exact Except.noConfusion h
  | ok c =>
  simp only [hc] at h
  cases hp : resolveParameters w m with
  | error e => simp only [hp] at h; exact Except.noConfusion h
  | ok p =>
  simp only [hp] at h
  cases hs : withContext "Failed to create a store" (w.storeNew m.store) with
  | error e => simp only [hs] at h; exact Except.noConfusion h
  | ok st =>
  simp only [hs] at h
  cases hr : resolveRegistry w m with
  | error e => simp only [hr] at h; exact Except.noConfusion h
  | ok reg =>
  simp only [hr] at h
  cases hsub : m.sub with
  | primary =>
    simp only [hsub] at h
    injection h with h
    subst h
    refine ⟨rfl, ?_, fun _ => rfl⟩
    intro cap hcap
    simp only [List.mem_cons, List.not_mem_nil, or_false] at hcap
    rcases hcap with rfl | rfl | rfl <;> rfl
  | worker idString =>
    simp only [hsub] at h
    cases hw : withContext "The worker id must be a positive integer"
        (parseWorkerId idString) with
    | error e => simp only [hw] at h; exact Except.noConfusion h
    | ok id =>
      simp only [hw] at h
      injection h with h
      subst h
      refine ⟨rfl, ?_, ?_⟩
      · intro cap hcap
        simp only [List.mem_cons, List.not_mem_nil, or_false] at hcap
        exact hcap
      · intro hcontra
        exact NodeSubcommand.noConfusion hcontra

theorem run_error_cases {w : World} {m : RunMatches} {msg : String}
    (h : run w m = Except.error msg) :
    msg = "Failed to load the node\x27s keypair"
    ∨ msg = "Failed to load the committee information"
    ∨ ((∃ f, m.parameters = some f) ∧ msg = "Failed to load the node\x27s parameters")
    ∨ msg = "Failed to create a store"
    ∨ msg = "Invalid prometheus socket address"
    ∨ msg = "The worker id must be a positive integer" := by
  rw [run] at h
  cases hk : withContext "Failed to load the node\x27s keypair" (w.keypairImport m.keys) with
  | error e =>
    simp only [hk] at h
    injection h with h
    rw [← h]
    exact Or.inl (withContext_error hk)
  | ok k =>
  simp only [hk] at h
  cases hc : withContext "Failed to load the committee information"
      (w.committeeImport m.committee) with
  | error e =>
    simp only [hc] at h
    injection h with h
    rw [← h]
    exact Or.inr (Or.inl (withContext_error hc))
  | ok c =>
  simp only [hc] at h
  cases hp : resolveParameters w m with
  | error e =>
    simp only [hp] at h
    injection h with h
    rw [← h]
    have hre := resolveParameters_error hp
    exact Or.inr (Or.inr (Or.inl hre))
  | ok p =>
  simp only [hp] at h
  cases hs : withContext "Failed to create a store" (w.storeNew m.store) with
  | error e =>
    simp only [hs] at h
    injection h with h
    rw [← h]
    exact Or.inr (Or.inr (Or.inr (Or.inl (withContext_error hs))))
  | ok st =>
  simp only [hs] at h
  cases hr : resolveRegistry w m with
  | error e =>
    simp only [hr] at h
    injection h with h
    rw [← h]
    exact Or.inr (Or.inr (Or.inr (Or.inr (Or.inl (resolveRegistry_error hr)))))
  | ok reg =>
  simp only [hr] at h
  cases hsub : m.sub with
  | primary =>
    simp only [hsub] at h
    exact Except.noConfusion h
  | worker idString =>
    simp only [hsub] at h
    cases hw : withContext "The worker id must be a positive integer"
        (parseWorkerId idString) with
    | error e =>
      simp only [hw] at h
      injection h with h
      rw [← h]
      exact Or.inr (Or.inr (Or.inr (Or.inr (Or.inr (withContext_error hw)))))
    | ok id =>
      simp only [hw] at h
      exact Except.noConfusion h

/-! ## Claims C6-C10: the node's `run` and `main` orchestration -/

/-- Claim C6: when importing the keypair file, importing the committee
file, or creating the store fails, `run` returns an error carrying the
corresponding descriptive cause; the error is returned before any
component spawn is reached, so nothing is spawned. -/
theorem c6_startup_failures :
    (∀ (w : World) (m : RunMatches), w.keypairImport m.keys = Except.error () →
        run w m = Except.error "Failed to load the node\x27s keypair")
  ∧ (∀ (w : World) (m : RunMatches) (k : KeyPair),
        w.keypairImport m.keys = Except.ok k →
        w.committeeImport m.committee = Except.error () →
        run w m = Except.error "Failed to load the committee information")
  ∧ (∀ (w : World) (m : RunMatches) (k : KeyPair) (c : Committee) (p : Parameters),
        w.keypairImport m.keys = Except.ok k →
        w.committeeImport m.committee = Except.ok c →
        resolveParameters w m = Except.ok p →
        w.storeNew m.store = Except.error () →
        run w m = Except.error "Failed to create a store") := by
  refine ⟨?_, ?_, ?_⟩
  · intro w m h
    simp [run, withContext, h]
  · intro w m k h1 h2
    simp [run, withContext, h1, h2]
  · intro w m k c p h1 h2 h3 h4
    simp [run, withContext, h1, h2, h3, h4]

/-- Witness for C6: concrete environments in which exactly one of the
three startup steps fails. -/
theorem c6_startup_failures_witness :
    run wBadKeys mPrimary = Except.error "Failed to load the node\x27s keypair"
    ∧ run wBadCommittee mPrimary = Except.error "Failed to load the committee information"
    ∧ run wBadStore mPrimary = Except.error "Failed to create a store" :=
  ⟨c6_startup_failures.1 wBadKeys mPrimary rfl,
   c6_startup_failures.2.1 wBadCommittee mPrimary ⟨0⟩ rfl rfl,
   c6_startup_failures.2.2 wBadStore mPrimary ⟨0⟩ ⟨[]⟩ Parameters.default rfl rfl rfl rfl⟩

/-- Claim C7: with no `--parameters` argument `run` proceeds with
`Parameters.default` (and in particular never fails with the parameters
cause); when a parameters file is supplied but fails to import, `run`
returns the error cause for parameters. -/
theorem c7_parameters_defaulting :
    (∀ (w : World) (m : RunMatches) (eff : RunEffects), m.parameters = none →
        run w m = Except.ok eff → eff.parametersUsed = Parameters.default)
  ∧ (∀ (w : World) (m : RunMatches), m.parameters = none →
        run w m ≠ Except.error "Failed to load the node\x27s parameters")
  ∧ (∀ (w : World) (m : RunMatches) (f : String) (k : KeyPair) (c : Committee),
        m.parameters = some f →
        w.keypairImport m.keys = Except.ok k →
        w.committeeImport m.committee = Except.ok c →
        w.parametersImport f = Except.error () →
        run w m = Except.error "Failed to load the node\x27s parameters") := by
  refine ⟨?_, ?_, ?_⟩
  · intro w m eff hp hrun
    have h1 := (run_ok_effects hrun).1
    rw [resolveParameters, hp] at h1
    injection h1 with h1
    exact h1.symm
  · intro w m hp hrun
    rcases run_error_cases hrun with h | h | ⟨⟨f, hf⟩, h⟩ | h | h | h
    · exact absurd h (by decide)
    · exact absurd h (by decide)
    · rw [hp] at hf
      exact Option.noConfusion hf
    · exact absurd h (by decide)
    · exact absurd h (by decide)
    · exact absurd h (by decide)
  · intro w m f k c hp h1 h2 h3
    have hrp : resolveParameters w m = Except.error "Failed to load the node\x27s parameters" := by
      rw [resolveParameters, hp]
      simp [withContext, h3]
    simp [run, withContext, h1, h2, hrp]

/-- Witness for C7: a primary with no parameters file runs with the
default parameters, and a failing parameters import surfaces the
parameters cause. -/
theorem c7_parameters_defaulting_witness :
    run wAllOk mPrimary = Except.ok runEffPrimary
    ∧ runEffPrimary.parametersUsed = Parameters.default
    ∧ run wAllOk mPrimary ≠ Except.error "Failed to load the node\x27s parameters"
    ∧ run wBadParameters mPrimaryParams = Except.error "Failed to load the node\x27s parameters" :=
  ⟨rfl,
   c7_parameters_defaulting.1 wAllOk mPrimary runEffPrimary rfl rfl,
   c7_parameters_defaulting.2.1 wAllOk mPrimary rfl,
   c7_parameters_defaulting.2.2 wBadParameters mPrimaryParams "parameters.json" ⟨0⟩ ⟨[]⟩
     rfl rfl rfl rfl⟩

/-- Claim C8: the channel capacity constant equals 1000, every channel
created by a successful `run` is bounded with that capacity, and the
primary path creates exactly the three channels (consensus output,
new certificates, feedback). -/
theorem c8_channel_capacities :
    CHANNEL_CAPACITY = 1000
  ∧ (∀ (w : World) (m : RunMatches) (eff : RunEffects), run w m = Except.ok eff →
        ∀ cap, cap ∈ eff.channels → cap = CHANNEL_CAPACITY)
  ∧ (∀ (w : World) (m : RunMatches) (eff : RunEffects), run w m = Except.ok eff →
        m.sub = NodeSubcommand.primary →
        eff.channels = [CHANNEL_CAPACITY, CHANNEL_CAPACITY, CHANNEL_CAPACITY]) :=
  ⟨rfl,
   fun _ _ _ h => (run_ok_effects h).2.1,
   fun _ _ _ h => (run_ok_effects h).2.2⟩

/-- Witness for C8: the concrete successful primary run, whose three
channels all have capacity 1000. -/
theorem c8_channel_capacities_witness :
    (1000 : Nat) ∈ runEffPrimary.channels
    ∧ (1000 : Nat) = CHANNEL_CAPACITY
    ∧ runEffPrimary.channels = [CHANNEL_CAPACITY, CHANNEL_CAPACITY, CHANNEL_CAPACITY] :=
  ⟨by decide,
   c8_channel_capacities.2.1 wAllOk mPrimary runEffPrimary rfl 1000 (by decide),
   c8_channel_capacities.2.2 wAllOk mPrimary runEffPrimary rfl rfl⟩

/-- Claim C9: under the worker subcommand, when every earlier startup
step succeeds but the `--id` argument does not parse as a `WorkerId`,
`run` returns the error cause for the worker id; the error is returned
before `Worker::spawn`, so no worker is spawned. -/
theorem c9_worker_id_parse (w : World) (m : RunMatches) (idString : String)
    (k : KeyPair) (c : Committee) (p : Parameters) (st : Store) (reg : Option Nat)
    (hsub : m.sub = NodeSubcommand.worker idString)
    (h1 : w.keypairImport m.keys = Except.ok k)
    (h2 : w.committeeImport m.committee = Except.ok c)
    (h3 : resolveParameters w m = Except.ok p)
    (h4 : w.storeNew m.store = Except.ok st)
    (h5 : resolveRegistry w m = Except.ok reg)
    (h6 : parseWorkerId idString = Except.error ()) :
    run w m = Except.error "The worker id must be a positive integer" := by
  simp [run, withContext, hsub, h1, h2, h3, h4, h5, h6]

/-- Witness for C9: a worker invocation whose id argument is the
non-numeric string "abc". -/
theorem c9_worker_id_parse_witness :
    parseWorkerId "abc" = Except.error ()
    ∧ run wAllOk (mWorker "abc") = Except.error "The worker id must be a positive integer" :=
  ⟨rfl,
   c9_worker_id_parse wAllOk (mWorker "abc") "abc" ⟨0⟩ ⟨[]⟩ Parameters.default ⟨"db"⟩
     none rfl rfl rfl rfl rfl rfl rfl⟩

/-- Claim C10: the default log level is a deterministic function of the
number of `-v` flags: 0 gives "error", 1 "warn", 2 "info", 3 "debug",
and 4 or more "trace". -/
theorem c10_log_level :
    logLevel 0 = "error" ∧ logLevel 1 = "warn" ∧ logLevel 2 = "info"
  ∧ logLevel 3 = "debug" ∧ ∀ v, 4 ≤ v → logLevel v = "trace" := by
  refine ⟨rfl, rfl, rfl, rfl, ?_⟩
  intro v hv
  obtain ⟨k, rfl⟩ : ∃ k, v = k + 4 := ⟨v - 4, by omega⟩
  rfl

/-- Witness for C10: seven `-v` flags give the "trace" level. -/
theorem c10_log_level_witness : 4 ≤ 7 ∧ logLevel 7 = "trace" :=
  ⟨by decide, c10_log_level.2.2.2.2 7 (by decide)⟩

end Narwhal
